import Mathlib

/-
Verification development for the HisabApp delivery / empty-cylinder
reconciliation program (main.py).

The program is a single-file Kivy application over a shared SQLite
connection.  The embedding below models:
  * the Python text parsers used on the widget inputs (int(text or 0),
    float(text or 0.0), str.strip()), on the character lists of the strings;
  * Python round(x, 2) — round half to even at 2 decimal places — and the
    spec-requested half-up rounding, both over exact rationals.  IEEE double
    representation effects are out of scope; every concrete value used in a
    counterexample below is a dyadic rational (877.5, 0.125) on which double
    arithmetic is exact, so those evaluations agree with the real program;
  * the database as the pair (visible, durable): `visible` is what the shared
    connection's cursor sees (uncommitted writes included, as in python
    sqlite3 where a SELECT on the same connection sees pending INSERTs);
    `durable` is the last committed snapshot.  cur.execute mutates `visible`,
    conn.commit() copies `visible` into `durable`;
  * NewEntryScreen.calculate / on_submit, ReconcilePopup.__init__ /
    update_and_prepare / load_step / save_current / go_next / go_prev /
    save_all, and ViewByDateScreen.load_records, as pure state-passing
    functions.  State names (awaitingEmptiesConfirmation, awaitingSlotEntry,
    closed, abandoned) label the source control flow with the spec's state
    machine vocabulary: dismissing after a balanced confirmation or a
    successful save is `closed`, cancel/skip is `abandoned`.
-/

/-! ### Python string helpers -/

/-- Whitespace characters removed by Python str.strip(). -/
def isSpaceChar (c : Char) : Bool :=
  c == ' ' || c == '\t' || c == '\n' || c == '\r' || c == '\x0b' || c == '\x0c'

/-- Embedding of Python str.strip(): removes leading and trailing whitespace. -/
def pyStrip (s : String) : String :=
  String.mk (((s.data.dropWhile isSpaceChar).reverse.dropWhile isSpaceChar).reverse)

/-- Value of a digit list (most significant first); empty list gives 0. -/
def natFromDigits (l : List Char) : Nat :=
  l.foldl (fun a c => a * 10 + (c.toNat - 48)) 0

/-- Digit list to Nat, requiring a non-empty all-digit list. -/
def digitsToNat (l : List Char) : Option Nat :=
  if !l.isEmpty && l.all Char.isDigit then some (natFromDigits l) else none

/-- Embedding of Python int(text) on the app's int-filtered widget text:
an optional sign followed by digits (whitespace or underscore forms never
reach int() through the filtered widgets). Returns none when int() raises. -/
def parsePyInt (s : String) : Option Int :=
  match s.data with
  | '-' :: rest => (digitsToNat rest).map (fun n => -(n : Int))
  | '+' :: rest => (digitsToNat rest).map (fun n => (n : Int))
  | l => (digitsToNat l).map (fun n => (n : Int))

/-- Embedding of the source pattern int(text or 0): the empty string is
falsy, so it parses as 0; otherwise int(text). -/
def parseIntOrZero (s : String) : Option Int :=
  if s = "" then some 0 else parsePyInt s

/-- Embedding of Python float(text) on the app's float-filtered widget text,
idealized to exact decimal rationals: optional sign, then digits with an
optional single decimal point ("1", "1.", ".5" accepted; "." and "1.2.3"
rejected, as float() rejects them). -/
def parsePyFloat (s : String) : Option Rat :=
  let sg : Int := match s.data with
    | '-' :: _ => -1
    | _ => 1
  let body : List Char := match s.data with
    | '-' :: r => r
    | '+' :: r => r
    | r => r
  let ip := body.takeWhile (fun c => c ≠ '.')
  let rest := body.dropWhile (fun c => c ≠ '.')
  match rest with
  | [] => (digitsToNat ip).map (fun n => ((sg * (n : Int) : Int) : Rat))
  | _ :: fp =>
    if ip.all Char.isDigit && fp.all Char.isDigit && (!ip.isEmpty || !fp.isEmpty) then
      some ((sg : Rat) * ((natFromDigits ip : Rat) +
        (natFromDigits fp : Rat) / ((10 : Rat) ^ fp.length)))
    else none

/-- Embedding of the source pattern float(text or 0.0). -/
def parseFloatOrZero (s : String) : Option Rat :=
  if s = "" then some 0 else parsePyFloat s

/-! ### Rounding -/

/-- Floor of a rational as an integer. -/
def ratFloor (q : Rat) : Int := ⌊q⌋

/-- Round a rational to the nearest integer, ties to even — the rounding
Python's round() performs on the value. -/
def roundHalfEvenInt (q : Rat) : Int :=
  let f := ratFloor q
  let r := q - (f : Rat)
  if r < 1/2 then f
  else if 1/2 < r then f + 1
  else if f % 2 = 0 then f else f + 1

/-- Embedding of Python round(x, 2) over exact rationals: half-to-even at
2 decimal places. -/
def pyRound2 (q : Rat) : Rat := ((roundHalfEvenInt (q * 100)) : Rat) / 100

/-- The rounding the spec asks for (spec-side definition, for comparison
with the code's rounding): standard half-up at 2 decimal places. -/
def specRoundHalfUp2 (q : Rat) : Rat := ((ratFloor (q * 100 + 1/2)) : Rat) / 100

/-! ### Database model -/

/-- One row of the records table. The field part_amt is the source column
partial_amt (renamed here). -/
structure RecordRow where
  id : Nat
  employee : String
  total_cyl : Int
  empty_received : Int
  online_pay : Int
  paytm_pay : Int
  part_amt : Rat
  final_amt : Rat
  collected_amt : Rat
  date_time : String
deriving DecidableEq

/-- One row of the remarks table (a persisted reconciliation slot). -/
structure RemarkRow where
  record_id : Nat
  seq : Nat
  remark_type : String
  consumer_name : String
  created_at : String
deriving DecidableEq

structure Tables where
  records : List RecordRow
  remarks : List RemarkRow
deriving DecidableEq

/-- The sqlite connection: `visible` is the state the shared cursor reads
(pending, uncommitted writes included); `durable` is the last committed
snapshot.  cur.execute edits `visible`; conn.commit() publishes it. -/
structure DB where
  nextId : Nat
  visible : Tables
  durable : Tables
deriving DecidableEq

def commitDB (db : DB) : DB := { db with durable := db.visible }

def emptyTables : Tables := { records := [], remarks := [] }

def emptyDB : DB := { nextId := 1, visible := emptyTables, durable := emptyTables }

/-- cur.execute of the INSERT INTO records statement: appends the row with
the next autoincrement id (uncommitted). -/
def execInsertRecord (row : RecordRow) (db : DB) : DB :=
  { db with nextId := db.nextId + 1,
            visible := { db.visible with records := db.visible.records ++ [row] } }

/-- cur.execute of UPDATE records SET empty_received=? WHERE id=?. -/
def execUpdateEmpty (recId : Nat) (e : Int) (db : DB) : DB :=
  let rows := db.visible.records.map
    (fun r => if r.id == recId then { r with empty_received := e } else r)
  { db with visible := { db.visible with records := rows } }

/-- cur.execute of the INSERT INTO remarks statement (uncommitted). -/
def execInsertRemark (r : RemarkRow) (db : DB) : DB :=
  { db with visible := { db.visible with remarks := db.visible.remarks ++ [r] } }

/-- SELECT empty_received FROM records WHERE id=?. -/
def selectEmpty (recId : Nat) (db : DB) : Option Int :=
  (db.visible.records.find? (fun r => r.id == recId)).map (fun r => r.empty_received)

/-- SQL LIKE with the pattern date plus a trailing percent wildcard:
a plain prefix match on the stored date_time text. -/
def likeMatch (pat s : String) : Bool := List.isPrefixOf pat.data s.data

def bySeq (a b : RemarkRow) : Prop := a.seq ≤ b.seq

instance : DecidableRel bySeq := fun a b => Nat.decLe a.seq b.seq

instance : IsTotal RemarkRow bySeq := ⟨fun a b => Nat.le_total a.seq b.seq⟩

instance : IsTrans RemarkRow bySeq := ⟨fun _ _ _ => Nat.le_trans⟩

def byId (a b : RecordRow) : Prop := a.id ≤ b.id

instance : DecidableRel byId := fun a b => Nat.decLe a.id b.id

instance : IsTotal RecordRow byId := ⟨fun a b => Nat.le_total a.id b.id⟩

instance : IsTrans RecordRow byId := ⟨fun _ _ _ => Nat.le_trans⟩

/-- SELECT ... FROM remarks WHERE record_id=? ORDER BY seq — reads through
the shared cursor, so pending uncommitted rows are visible. -/
def querySlots (recId : Nat) (db : DB) : List RemarkRow :=
  List.insertionSort bySeq (db.visible.remarks.filter (fun r => r.record_id == recId))

/-- SELECT ... FROM records WHERE date_time LIKE ? ORDER BY id. -/
def queryTransactionsByDate (d : String) (db : DB) : List RecordRow :=
  List.insertionSort byId (db.visible.records.filter (fun r => likeMatch d r.date_time))

/-! ### Reason codes and reconciliation slots -/

/-- Reason code NC. -/
def NC : String := "NC"

/-- Reason code DBC. -/
def DBC : String := "DBC"

/-- Reason code TV. -/
def TV : String := "TV"

/-- Domain code EmptyPending of the glossary; the source literal. -/
def EmptyPending : String := "Empty baki"

/-- Domain code EmptyReturned of the glossary; the source literal. -/
def EmptyReturned : String := "Empty Return"

inductive SlotKind
  | missing
  | extra
deriving DecidableEq

/-- One in-memory reconciliation step dict of ReconcilePopup. -/
structure Step where
  seq : Nat
  mode : SlotKind
  options : List String
  selected : Option String
  consumer : String
deriving DecidableEq

/-- Reason option list attached to each missing-kind step in the source. -/
def missingOptions : List String := [NC, DBC, TV, EmptyPending]

/-- Reason option list attached to each extra-kind step in the source. -/
def extraOptions : List String := [TV, EmptyReturned, NC, DBC, EmptyPending]

/-- The step-building loops of ReconcilePopup.update_and_prepare, as a
function of the recomputed diff = empty_received - delivered. -/
def mkSteps (diff : Int) : List Step :=
  if diff = 0 then []
  else if diff < 0 then
    (List.range diff.natAbs).map (fun i =>
      { seq := i + 1, mode := SlotKind.missing, options := missingOptions,
        selected := none, consumer := "" })
  else
    (List.range diff.natAbs).map (fun i =>
      { seq := i + 1, mode := SlotKind.extra, options := extraOptions,
        selected := none, consumer := "" })

/-- Spec state-machine labels for the popup's control flow. -/
inductive Phase
  | awaitingEmptiesConfirmation
  | awaitingSlotEntry
  | closed
  | abandoned
deriving DecidableEq

/-- The mutable state of a ReconcilePopup instance. -/
structure PopupState where
  recordId : Nat
  delivered : Int
  emptyReceived : Int
  emptyEditText : String
  steps : List Step
  currentIndex : Int
  phase : Phase
deriving DecidableEq

/-- ReconcilePopup.__init__: the empty_edit field is initialized to
str(empty_received), steps empty, index 0. -/
def reconcileInit (recId : Nat) (deliveredCount emptyReceivedCount : Int) : PopupState :=
  { recordId := recId, delivered := deliveredCount, emptyReceived := emptyReceivedCount,
    emptyEditText := toString emptyReceivedCount, steps := [], currentIndex := 0,
    phase := Phase.awaitingEmptiesConfirmation }

/-- ReconcilePopup.update_and_prepare: parse the edited empties text
(int(text or 0)); on failure show an error and change nothing; otherwise
persist the new count (UPDATE + commit), recompute diff, and either close
immediately (diff = 0) or build the steps and enter per-slot entry. -/
def updateAndPrepare (txt : String) (p : PopupState) (db : DB) : PopupState × DB :=
  match parseIntOrZero txt with
  | none => (p, db)
  | some e =>
    let db1 := commitDB (execUpdateEmpty p.recordId e db)
    let p1 := { p with emptyReceived := e }
    let diff := e - p.delivered
    if diff = 0 then ({ p1 with steps := [], phase := Phase.closed }, db1)
    else
      ({ p1 with steps := mkSteps diff, currentIndex := 0, phase := Phase.awaitingSlotEntry },
       db1)

/-- Python truthiness test `not s.get("selected")`: true for a missing
selection (and for an empty-string one, which the UI never produces). -/
def pyFalsy : Option String → Bool
  | none => true
  | some s => s == ""

/-- The spinner-to-selection rule of save_current: the placeholder text
"Choose reason" means no selection. -/
def selOf (dropText : String) : Option String :=
  if dropText = "Choose reason" then none else some dropText

/-- In-place dict mutation steps[i] at index i (out of range: no change;
the Python code never reaches an out-of-range or negative index, see the
bounds invariant below). -/
def updateAt (l : List Step) (i : Nat) (f : Step → Step) : List Step :=
  match l, i with
  | [], _ => []
  | x :: xs, 0 => f x :: xs
  | x :: xs, Nat.succ n => x :: updateAt xs n f

/-- steps[current_index] as read by the popup methods.  none models the
IndexError Python would raise (negative wrap-around never occurs: the
index is clamped at 0, see the bounds invariant below). -/
def stepAt (p : PopupState) : Option Step :=
  if p.currentIndex < 0 then none else p.steps.get? p.currentIndex.toNat

/-- ReconcilePopup.save_current: write the spinner selection and the
stripped consumer name into the current step (in memory only). -/
def saveCurrent (dropText nameText : String) (p : PopupState) : PopupState :=
  if p.currentIndex < 0 then p
  else
    let st := updateAt p.steps p.currentIndex.toNat
      (fun s => { s with selected := selOf dropText, consumer := pyStrip nameText })
    { p with steps := st }

inductive UiErr
  | requiredField
  | indexError
deriving DecidableEq

/-- ReconcilePopup.go_next: save the current entry, refuse to advance while
the (just saved) current selection is missing, otherwise advance with a
clamp at the last step.  Touches no database state. -/
def goNext (dropText nameText : String) (p : PopupState) : PopupState × Option UiErr :=
  match stepAt p with
  | none => (p, some UiErr.indexError)
  | some _ =>
    let p1 := saveCurrent dropText nameText p
    match stepAt p1 with
    | none => (p1, some UiErr.indexError)
    | some s =>
      if pyFalsy s.selected then (p1, some UiErr.requiredField)
      else ({ p1 with currentIndex := min (p1.currentIndex + 1) ((p1.steps.length : Int) - 1) },
            none)

/-- ReconcilePopup.go_prev: save the current entry and move back with a
clamp at the first step; no guard.  Touches no database state. -/
def goPrev (dropText nameText : String) (p : PopupState) : PopupState × Option UiErr :=
  match stepAt p with
  | none => (p, some UiErr.indexError)
  | some _ =>
    let p1 := saveCurrent dropText nameText p
    ({ p1 with currentIndex := max (p1.currentIndex - 1) 0 }, none)

/-- The widget state load_step writes into. -/
structure StepUi where
  dropValues : List String
  dropText : String
  nameText : String
  title : String
deriving DecidableEq

/-- ReconcilePopup.load_step: an out-of-range index changes nothing;
otherwise the widgets are filled from steps[idx]. -/
def loadStep (idx : Int) (p : PopupState) (ui : StepUi) : StepUi :=
  if idx < 0 ∨ (p.steps.length : Int) ≤ idx then ui
  else match p.steps.get? idx.toNat with
  | none => ui
  | some s =>
    { dropValues := s.options,
      dropText := if pyFalsy s.selected then "Choose reason" else s.selected.getD "",
      nameText := s.consumer,
      title := "Entry " ++ toString (idx + 1) ++ " of " ++ toString p.steps.length
        ++ " - " ++ (if s.mode == SlotKind.missing then "missing" else "extra") }

/-- The remarks row the INSERT of save_all writes for one step
(selected or empty string, consumer name, creation timestamp). -/
def remarkOf (recId : Nat) (now : String) (s : Step) : RemarkRow :=
  { record_id := recId, seq := s.seq, remark_type := s.selected.getD "",
    consumer_name := s.consumer, created_at := now }

/-- The INSERT loop of save_all.  failOn injects a StorageError: when the
k-th execute raises, the loop stops — the rows already executed stay
pending on the connection and nothing is rolled back (the source has no
rollback).  Returns the connection state and whether the loop completed. -/
def insertLoop (failOn : Nat → Bool) (recId : Nat) (now : String) :
    List Step → Nat → DB → DB × Bool
  | [], _, db => (db, true)
  | s :: rest, k, db =>
    if failOn k then (db, false)
    else insertLoop failOn recId now rest (k + 1) (execInsertRemark (remarkOf recId now s) db)

inductive SaveOutcome
  | requiredError
  | saved
  | storageError
  | indexError
deriving DecidableEq

/-- ReconcilePopup.save_all: save the current entry, reject with the
required-field popup if any step is unclassified (nothing touches the
database), otherwise run the INSERT loop and commit once at the end.
On a StorageError partway the exception is caught and shown; there is no
rollback and no commit. -/
def saveAllWith (failOn : Nat → Bool) (dropText nameText now : String)
    (p : PopupState) (db : DB) : PopupState × DB × SaveOutcome :=
  match stepAt p with
  | none => (p, db, SaveOutcome.indexError)
  | some _ =>
    let p1 := saveCurrent dropText nameText p
    if p1.steps.any (fun s => pyFalsy s.selected) then (p1, db, SaveOutcome.requiredError)
    else
      match insertLoop failOn p1.recordId now p1.steps 0 db with
      | (db1, true) => ({ p1 with phase := Phase.closed }, commitDB db1, SaveOutcome.saved)
      | (db1, false) => (p1, db1, SaveOutcome.storageError)

/-- save_all in a run where persistence does not fail. -/
def saveAll (dropText nameText now : String) (p : PopupState) (db : DB) :
    PopupState × DB × SaveOutcome :=
  saveAllWith (fun _ => false) dropText nameText now p db

/-! ### Delivery Transaction Builder -/

/-- The arithmetic body of NewEntryScreen.calculate: the validation rule
and the amount computation (none models the validation popup path, where
final_amount is left untouched). -/
def calcAmount (total online paytm : Int) (partAmt price : Rat) : Option Rat :=
  if online + paytm > total then none
  else some (pyRound2 (((total - online - paytm : Int) : Rat) * price + partAmt))

/-- NewEntryScreen.calculate on the raw widget texts: any parse failure is
caught and reported, leaving final_amount untouched (none). -/
def calculate (totalText onlineText paytmText partText : String) (price : Rat) : Option Rat :=
  match parseIntOrZero totalText, parseIntOrZero onlineText,
        parseIntOrZero paytmText, parseFloatOrZero partText with
  | some total, some online, some paytm, some pa => calcAmount total online paytm pa price
  | _, _, _, _ => none

/-- NewEntryScreen.on_submit.  It reruns calculate (ignoring failure: on
failure the stale prevFinal is used), resolves the employee, parses the
delivered count (a parse failure here raises out of the handler, nothing
persisted), computes the suggested empties (blank or unparseable text
defaults to the delivered count), inserts the record and commits, re-reads
the stored empties, and opens the reconcile popup on the stored value.
Note that the record is inserted whether or not validation succeeded. -/
def onSubmit (emp totalText emptyText onlineText paytmText partText collText : String)
    (prevFinal price : Rat) (now : String) (db : DB) : DB × Option (Nat × PopupState) :=
  let final := (calculate totalText onlineText paytmText partText price).getD prevFinal
  let collected := (parseFloatOrZero collText).getD 0
  let empStored := if emp = "Choose" then "" else emp
  match parseIntOrZero totalText with
  | none => (db, none)
  | some delivered =>
    let preEmpty := if emptyText = "" then delivered else (parsePyInt emptyText).getD delivered
    match parseIntOrZero onlineText, parseIntOrZero paytmText, parseFloatOrZero partText with
    | some onl, some pay, some pa =>
      let row : RecordRow :=
        { id := db.nextId, employee := empStored, total_cyl := delivered,
          empty_received := preEmpty, online_pay := onl, paytm_pay := pay,
          part_amt := pa, final_amt := final, collected_amt := collected, date_time := now }
      let db1 := commitDB (execInsertRecord row db)
      let stored := match selectEmpty row.id db1 with
        | some v => v
        | none => delivered
      (db1, some (row.id, reconcileInit row.id delivered stored))
    | _, _, _ => (db, none)

/-! ### Reporting -/

/-- The per-slot remark formatting of ViewByDateScreen.load_records: the
colon-name part appears only when the consumer name is truthy and not
whitespace-only. -/
def formatRemark (rt cn : String) : String :=
  if cn ≠ "" ∧ pyStrip cn ≠ "" then rt ++ ": " ++ cn else rt

/-- The joined remark summary of one record, in slot sequence order. -/
def remarkSummary (recId : Nat) (db : DB) : String :=
  String.intercalate ", " ((querySlots recId db).map (fun r => formatRemark r.remark_type r.consumer_name))

/-- listForDate: the record rows of a calendar date in id order, each
paired with its remark summary (ViewByDateScreen.load_records). -/
def listForDate (d : String) (db : DB) : List (RecordRow × String) :=
  (queryTransactionsByDate d db).map (fun r => (r, remarkSummary r.id db))

/-- Spec-side summary (the claim's wording): concatenation of
reasonCode: consumerName per slot, colon-name part omitted exactly when
the consumer name is empty. -/
def specRemarkSummary (slots : List RemarkRow) : String :=
  String.intercalate ", " (slots.map (fun r =>
    if r.consumer_name = "" then r.remark_type else r.remark_type ++ ": " ++ r.consumer_name))

/-! ### Navigation sequences (for the bounds invariant) -/

/-- One operator navigation action during per-slot entry, carrying the
widget contents at the moment the button is pressed. -/
inductive NavOp
  | fwd (dropText nameText : String)
  | back (dropText nameText : String)
deriving DecidableEq

/-- The popup state after one navigation button press. -/
def applyNav (op : NavOp) (p : PopupState) : PopupState :=
  match op with
  | NavOp.fwd d n => (goNext d n p).1
  | NavOp.back d n => (goPrev d n p).1

/-- The popup state after a sequence of navigation button presses. -/
def runNav (ops : List NavOp) (p : PopupState) : PopupState :=
  ops.foldl (fun q op => applyNav op q) p

/-! ### Helper lemmas -/

theorem updateAt_length (f : Step → Step) :
    ∀ (l : List Step) (i : Nat), (updateAt l i f).length = l.length := by
  intro l
  induction l with
  | nil => intro i; rfl
  | cons x xs ih =>
    intro i
    cases i with
    | zero => rfl
    | succ n => simp [updateAt, ih n]

theorem updateAt_get_self (f : Step → Step) :
    ∀ (l : List Step) (i : Nat), (updateAt l i f).get? i = (l.get? i).map f := by
  intro l
  induction l with
  | nil => intro i; rfl
  | cons x xs ih =>
    intro i
    cases i with
    | zero => rfl
    | succ n => simpa [updateAt] using ih n

theorem updateAt_map_of_comp (f : Step → Step) (g : Step → Nat) (hg : ∀ s, g (f s) = g s) :
    ∀ (l : List Step) (i : Nat), (updateAt l i f).map g = l.map g := by
  intro l
  induction l with
  | nil => intro i; rfl
  | cons x xs ih =>
    intro i
    cases i with
    | zero => simp [updateAt, hg x]
    | succ n => simp [updateAt, ih n]

theorem saveCurrent_currentIndex (d n : String) (p : PopupState) :
    (saveCurrent d n p).currentIndex = p.currentIndex := by
  unfold saveCurrent
  split
  · rfl
  · rfl

theorem saveCurrent_steps_length (d n : String) (p : PopupState) :
    (saveCurrent d n p).steps.length = p.steps.length := by
  unfold saveCurrent
  split
  · rfl
  · simp [updateAt_length]

theorem saveCurrent_map_seq (d n : String) (p : PopupState) :
    (saveCurrent d n p).steps.map Step.seq = p.steps.map Step.seq := by
  unfold saveCurrent
  split
  · rfl
  · exact updateAt_map_of_comp
      (fun s => { s with selected := selOf d, consumer := pyStrip n }) Step.seq
      (fun s => rfl) p.steps p.currentIndex.toNat

theorem saveCurrent_recordId (d n : String) (p : PopupState) :
    (saveCurrent d n p).recordId = p.recordId := by
  unfold saveCurrent
  split
  · rfl
  · rfl

theorem stepAt_saveCurrent (d n : String) (p : PopupState)
    (h0 : 0 ≤ p.currentIndex) (h1 : p.currentIndex < (p.steps.length : Int)) :
    ∃ s0, stepAt p = some s0 ∧
      stepAt (saveCurrent d n p) =
        some { s0 with selected := selOf d, consumer := pyStrip n } := by
  have hnat : p.currentIndex.toNat < p.steps.length := by omega
  have hget : ∃ s0, p.steps.get? p.currentIndex.toNat = some s0 := by
    cases hg : p.steps.get? p.currentIndex.toNat with
    | none =>
      rw [List.get?_eq_none] at hg
      omega
    | some s => exact ⟨s, rfl⟩
  obtain ⟨s0, hs0⟩ := hget
  refine ⟨s0, ?_, ?_⟩
  · unfold stepAt
    rw [if_neg (by omega)]
    exact hs0
  · unfold stepAt
    rw [if_neg (by rw [saveCurrent_currentIndex]; omega), saveCurrent_currentIndex]
    unfold saveCurrent
    rw [if_neg (by omega)]
    simp only [updateAt_get_self, hs0, Option.map_some']

theorem goNext_blocked (d n : String) (p : PopupState)
    (h0 : 0 ≤ p.currentIndex) (h1 : p.currentIndex < (p.steps.length : Int))
    (hf : pyFalsy (selOf d) = true) :
    goNext d n p = (saveCurrent d n p, some UiErr.requiredField) := by
  obtain ⟨s0, hsp, hsc⟩ := stepAt_saveCurrent d n p h0 h1
  unfold goNext
  rw [hsp]
  simp only [hsc]
  rw [if_pos hf]

theorem goNext_advances (d n : String) (p : PopupState)
    (h0 : 0 ≤ p.currentIndex) (h1 : p.currentIndex < (p.steps.length : Int))
    (hf : pyFalsy (selOf d) = false) :
    goNext d n p =
      ({ saveCurrent d n p with
          currentIndex := min (p.currentIndex + 1) ((p.steps.length : Int) - 1) }, none) := by
  obtain ⟨s0, hsp, hsc⟩ := stepAt_saveCurrent d n p h0 h1
  unfold goNext
  rw [hsp]
  simp only [hsc]
  rw [if_neg (by simp [hf])]
  simp only [saveCurrent_currentIndex, saveCurrent_steps_length]

theorem goPrev_eq (d n : String) (p : PopupState)
    (h0 : 0 ≤ p.currentIndex) (h1 : p.currentIndex < (p.steps.length : Int)) :
    goPrev d n p =
      ({ saveCurrent d n p with currentIndex := max (p.currentIndex - 1) 0 }, none) := by
  obtain ⟨s0, hsp, _⟩ := stepAt_saveCurrent d n p h0 h1
  unfold goPrev
  rw [hsp]
  simp only [saveCurrent_currentIndex]

theorem applyNav_bounds (op : NavOp) (p : PopupState)
    (h0 : 0 ≤ p.currentIndex) (h1 : p.currentIndex < (p.steps.length : Int)) :
    0 ≤ (applyNav op p).currentIndex ∧
      (applyNav op p).currentIndex < ((applyNav op p).steps.length : Int) := by
  cases op with
  | fwd d n =>
    cases hf : pyFalsy (selOf d) with
    | true =>
      have happ : applyNav (NavOp.fwd d n) p = (goNext d n p).1 := rfl
      rw [happ, goNext_blocked d n p h0 h1 hf]
      refine ⟨?_, ?_⟩
      · rw [saveCurrent_currentIndex]
        exact h0
      · rw [saveCurrent_currentIndex, saveCurrent_steps_length]
        exact h1
    | false =>
      have happ : applyNav (NavOp.fwd d n) p = (goNext d n p).1 := rfl
      rw [happ, goNext_advances d n p h0 h1 hf]
      have hlen : (({ saveCurrent d n p with
          currentIndex := min (p.currentIndex + 1) ((p.steps.length : Int) - 1) }
            : PopupState).steps.length : Int) = (p.steps.length : Int) := by
        show ((saveCurrent d n p).steps.length : Int) = (p.steps.length : Int)
        rw [saveCurrent_steps_length]
      refine ⟨?_, ?_⟩
      · show (0 : Int) ≤ min (p.currentIndex + 1) ((p.steps.length : Int) - 1)
        rw [min_def]
        split <;> omega
      · rw [hlen]
        show min (p.currentIndex + 1) ((p.steps.length : Int) - 1) < (p.steps.length : Int)
        rw [min_def]
        split <;> omega
  | back d n =>
    have happ : applyNav (NavOp.back d n) p = (goPrev d n p).1 := rfl
    rw [happ, goPrev_eq d n p h0 h1]
    have hlen : (({ saveCurrent d n p with
        currentIndex := max (p.currentIndex - 1) 0 }
          : PopupState).steps.length : Int) = (p.steps.length : Int) := by
      show ((saveCurrent d n p).steps.length : Int) = (p.steps.length : Int)
      rw [saveCurrent_steps_length]
    refine ⟨?_, ?_⟩
    · show (0 : Int) ≤ max (p.currentIndex - 1) 0
      rw [max_def]
      split <;> omega
    · rw [hlen]
      show max (p.currentIndex - 1) 0 < (p.steps.length : Int)
      rw [max_def]
      split <;> omega

theorem runNav_bounds (ops : List NavOp) :
    ∀ (p : PopupState), 0 ≤ p.currentIndex → p.currentIndex < (p.steps.length : Int) →
      0 ≤ (runNav ops p).currentIndex ∧
        (runNav ops p).currentIndex < ((runNav ops p).steps.length : Int) := by
  induction ops with
  | nil => intro p h0 h1; exact ⟨h0, h1⟩
  | cons op rest ih =>
    intro p h0 h1
    have hb := applyNav_bounds op p h0 h1
    have hrun : runNav (op :: rest) p = runNav rest (applyNav op p) := rfl
    rw [hrun]
    exact ih (applyNav op p) hb.1 hb.2

theorem loadStep_oor (idx : Int) (p : PopupState) (ui : StepUi)
    (h : idx < 0 ∨ (p.steps.length : Int) ≤ idx) : loadStep idx p ui = ui := by
  unfold loadStep
  rw [if_pos h]

theorem mkSteps_length (diff : Int) : (mkSteps diff).length = diff.natAbs := by
  unfold mkSteps
  split_ifs with h1 h2
  · simp [h1]
  · simp
  · simp

theorem mkSteps_mem_neg (diff : Int) (h : diff < 0) :
    ∀ s ∈ mkSteps diff, s.mode = SlotKind.missing ∧ s.options = missingOptions := by
  intro s hs
  unfold mkSteps at hs
  rw [if_neg (by omega), if_pos h] at hs
  simp only [List.mem_map, List.mem_range] at hs
  obtain ⟨i, _, rfl⟩ := hs
  exact ⟨rfl, rfl⟩

theorem mkSteps_mem_pos (diff : Int) (h : 0 < diff) :
    ∀ s ∈ mkSteps diff, s.mode = SlotKind.extra ∧ s.options = extraOptions := by
  intro s hs
  unfold mkSteps at hs
  rw [if_neg (by omega), if_neg (by omega)] at hs
  simp only [List.mem_map, List.mem_range] at hs
  obtain ⟨i, _, rfl⟩ := hs
  exact ⟨rfl, rfl⟩

theorem mkSteps_map_seq (diff : Int) :
    (mkSteps diff).map Step.seq = (List.range diff.natAbs).map (fun i => i + 1) := by
  unfold mkSteps
  split_ifs with h1 h2
  · simp [h1]
  · simp only [List.map_map]
    rfl
  · simp only [List.map_map]
    rfl

theorem updateAndPrepare_steps (txt : String) (p : PopupState) (db : DB) (e : Int)
    (h : parseIntOrZero txt = some e) :
    (updateAndPrepare txt p db).1.steps = mkSteps (e - p.delivered) := by
  unfold updateAndPrepare
  simp only [h]
  split_ifs with h0
  · simp [mkSteps, h0]
  · rfl

/-- C1: a reconciliation run with delivered D and confirmed empties E
generates abs(E - D) slots; when E - D < 0 every slot is of kind missing
with reason options NC, DBC, TV, EmptyPending; when E - D > 0 every slot is
of kind extra with reason options TV, EmptyReturned, NC, DBC, EmptyPending;
and the slots carry 1-based sequence numbers 1..abs(E - D). -/
theorem slots_generation (txt : String) (p : PopupState) (db : DB) (e : Int)
    (h : parseIntOrZero txt = some e) :
    (updateAndPrepare txt p db).1.steps.length = (e - p.delivered).natAbs ∧
    (e - p.delivered < 0 → ∀ s ∈ (updateAndPrepare txt p db).1.steps,
      s.mode = SlotKind.missing ∧ s.options = [NC, DBC, TV, EmptyPending]) ∧
    (0 < e - p.delivered → ∀ s ∈ (updateAndPrepare txt p db).1.steps,
      s.mode = SlotKind.extra ∧ s.options = [TV, EmptyReturned, NC, DBC, EmptyPending]) ∧
    (updateAndPrepare txt p db).1.steps.map Step.seq
      = (List.range (e - p.delivered).natAbs).map (fun i => i + 1) := by
  rw [updateAndPrepare_steps txt p db e h]
  refine ⟨mkSteps_length _, ?_, ?_, mkSteps_map_seq _⟩
  · intro hneg s hs
    exact mkSteps_mem_neg _ hneg s hs
  · intro hpos s hs
    exact mkSteps_mem_pos _ hpos s hs

/-- Fixture: a popup right after a record with delivered 10 was saved with
empties 7. -/
def pC1 : PopupState := reconcileInit 3 10 7

/-- The first generated missing slot of the C1 fixture. -/
def stepC1 : Step :=
  { seq := 1, mode := SlotKind.missing, options := missingOptions,
    selected := none, consumer := "" }

theorem slots_generation_witness :
    (updateAndPrepare "7" pC1 emptyDB).1.steps.length = 3 ∧
    (updateAndPrepare "7" pC1 emptyDB).1.steps.map Step.seq = [1, 2, 3] ∧
    stepC1.mode = SlotKind.missing ∧ stepC1.options = [NC, DBC, TV, EmptyPending] := by
  have h := slots_generation "7" pC1 emptyDB 7 (by decide)
  refine ⟨h.1.trans (by decide), h.2.2.2.trans (by decide), ?_, ?_⟩
  · exact (h.2.1 (by decide) stepC1 (by decide)).1
  · exact (h.2.1 (by decide) stepC1 (by decide)).2

/-- C6: when the confirmed empties count equals the delivered count, the
reconciliation run generates zero slots and goes directly to Closed. -/
theorem balanced_closes (txt : String) (p : PopupState) (db : DB) (e : Int)
    (h : parseIntOrZero txt = some e) (heq : e = p.delivered) :
    (updateAndPrepare txt p db).1.steps = [] ∧
    (updateAndPrepare txt p db).1.phase = Phase.closed ∧
    (updateAndPrepare txt p db).1.emptyReceived = e := by
  have hd : e - p.delivered = 0 := by omega
  unfold updateAndPrepare
  simp only [h, hd]
  exact ⟨rfl, rfl, rfl⟩

/-- Fixture: a popup for a record with delivered 10 and confirmed empties
10. -/
def pC6 : PopupState := reconcileInit 2 10 10

theorem balanced_closes_witness :
    (updateAndPrepare "10" pC6 emptyDB).1.steps = [] ∧
    (updateAndPrepare "10" pC6 emptyDB).1.phase = Phase.closed ∧
    (updateAndPrepare "10" pC6 emptyDB).1.emptyReceived = 10 :=
  balanced_closes "10" pC6 emptyDB 10 (by decide) (by decide)

/-- C7: during per-slot entry, pressing Next with no reason selected fails
with the required-field error and leaves the position unchanged; with a
reason selected it advances (clamped at the last slot); pressing Previous
always succeeds and moves back (clamped at the first slot).  Neither
go_next nor go_prev touches the database (both are pure popup-state
functions in this embedding, as neither source method issues any SQL). -/
theorem navigation_guard (d n : String) (p : PopupState)
    (h0 : 0 ≤ p.currentIndex) (h1 : p.currentIndex < (p.steps.length : Int)) :
    (pyFalsy (selOf d) = true →
      (goNext d n p).2 = some UiErr.requiredField ∧
      (goNext d n p).1.currentIndex = p.currentIndex) ∧
    (pyFalsy (selOf d) = false →
      (goNext d n p).2 = none ∧
      (goNext d n p).1.currentIndex = min (p.currentIndex + 1) ((p.steps.length : Int) - 1)) ∧
    ((goPrev d n p).2 = none ∧
      (goPrev d n p).1.currentIndex = max (p.currentIndex - 1) 0) := by
  refine ⟨fun hf => ?_, fun hf => ?_, ?_⟩
  · rw [goNext_blocked d n p h0 h1 hf]
    exact ⟨rfl, saveCurrent_currentIndex d n p⟩
  · rw [goNext_advances d n p h0 h1 hf]
    exact ⟨rfl, rfl⟩
  · rw [goPrev_eq d n p h0 h1]
    exact ⟨rfl, rfl⟩

/-- Fixture: a popup in per-slot entry over two missing slots, at slot 0. -/
def pC7 : PopupState :=
  { recordId := 1, delivered := 10, emptyReceived := 8, emptyEditText := "8",
    steps := mkSteps (-2), currentIndex := 0, phase := Phase.awaitingSlotEntry }

theorem navigation_guard_witness :
    ((goNext "Choose reason" "" pC7).2 = some UiErr.requiredField ∧
      (goNext "Choose reason" "" pC7).1.currentIndex = 0) ∧
    ((goNext "NC" "" pC7).2 = none ∧ (goNext "NC" "" pC7).1.currentIndex = 1) ∧
    ((goPrev "NC" "" pC7).2 = none ∧ (goPrev "NC" "" pC7).1.currentIndex = 0) := by
  have hA := navigation_guard "Choose reason" "" pC7 (by decide) (by decide)
  have hB := navigation_guard "NC" "" pC7 (by decide) (by decide)
  refine ⟨hA.1 (by decide), ?_, ?_⟩
  · have h2 := hB.2.1 (by decide)
    exact ⟨h2.1, h2.2.trans (by decide)⟩
  · have h3 := hB.2.2
    exact ⟨h3.1, h3.2.trans (by decide)⟩

/-- C10: starting anywhere in bounds over a non-empty slot list, any
sequence of Next/Previous presses keeps the current index within
0..len(steps)-1 (Next clamps at the last slot, Previous at the first), and
load_step with an out-of-range index changes nothing. -/
theorem nav_index_bounds (ops : List NavOp) (p : PopupState)
    (h0 : 0 ≤ p.currentIndex) (h1 : p.currentIndex < (p.steps.length : Int)) :
    (0 ≤ (runNav ops p).currentIndex ∧
      (runNav ops p).currentIndex < ((runNav ops p).steps.length : Int)) ∧
    (∀ (idx : Int) (q : PopupState) (ui : StepUi),
      idx < 0 ∨ (q.steps.length : Int) ≤ idx → loadStep idx q ui = ui) ∧
    (∀ (d n : String) (q : PopupState), 0 ≤ q.currentIndex →
      q.currentIndex = (q.steps.length : Int) - 1 → pyFalsy (selOf d) = false →
      (goNext d n q).1.currentIndex = q.currentIndex) ∧
    (∀ (d n : String) (q : PopupState), q.currentIndex = 0 →
      (goPrev d n q).1.currentIndex = 0) := by
  refine ⟨runNav_bounds ops p h0 h1, loadStep_oor, ?_, ?_⟩
  · intro d n q hq0 hqlast hf
    have hqlt : q.currentIndex < (q.steps.length : Int) := by omega
    rw [goNext_advances d n q hq0 hqlt hf]
    show min (q.currentIndex + 1) ((q.steps.length : Int) - 1) = q.currentIndex
    rw [min_def]
    split <;> omega
  · intro d n q hq
    unfold goPrev
    cases hsq : stepAt q with
    | none => exact hq
    | some s =>
      simp only [hsq]
      show max ((saveCurrent d n q).currentIndex - 1) 0 = 0
      rw [saveCurrent_currentIndex, hq]
      decide

/-- Fixture: the per-slot navigation state used for the bounds witness. -/
def pC10 : PopupState :=
  { recordId := 4, delivered := 5, emptyReceived := 8, emptyEditText := "8",
    steps := mkSteps 3, currentIndex := 0, phase := Phase.awaitingSlotEntry }

/-- A blank widget state for the load_step witness. -/
def uiC10 : StepUi := { dropValues := [], dropText := "", nameText := "", title := "" }

theorem nav_index_bounds_witness :
    (0 ≤ (runNav [NavOp.fwd "TV" "", NavOp.fwd "NC" "", NavOp.back "NC" "",
        NavOp.fwd "Choose reason" ""] pC10).currentIndex ∧
      (runNav [NavOp.fwd "TV" "", NavOp.fwd "NC" "", NavOp.back "NC" "",
        NavOp.fwd "Choose reason" ""] pC10).currentIndex <
        (((runNav [NavOp.fwd "TV" "", NavOp.fwd "NC" "", NavOp.back "NC" "",
          NavOp.fwd "Choose reason" ""] pC10).steps.length : Int))) ∧
    loadStep 5 pC10 uiC10 = uiC10 ∧
    loadStep (-1) pC10 uiC10 = uiC10 := by
  have h := nav_index_bounds
    [NavOp.fwd "TV" "", NavOp.fwd "NC" "", NavOp.back "NC" "", NavOp.fwd "Choose reason" ""]
    pC10 (by decide) (by decide)
  refine ⟨h.1, ?_, ?_⟩
  · exact h.2.1 5 pC10 uiC10 (by decide)
  · exact h.2.1 (-1) pC10 uiC10 (by decide)

theorem insertLoop_no_fail (recId : Nat) (now : String) :
    ∀ (steps : List Step) (k : Nat) (db : DB),
      insertLoop (fun _ => false) recId now steps k db =
        ({ db with visible := { db.visible with
            remarks := db.visible.remarks ++ steps.map (remarkOf recId now) } }, true) := by
  intro steps
  induction steps with
  | nil =>
    intro k db
    show (db, true) = _
    simp
  | cons s rest ih =>
    intro k db
    show insertLoop (fun _ => false) recId now (s :: rest) k db = _
    unfold insertLoop
    rw [if_neg (by simp)]
    rw [ih (k + 1) (execInsertRemark (remarkOf recId now s) db)]
    simp [execInsertRemark]

/-- C2: at terminal save, if any slot still has no reason selected the save
fails with the required-field error and the database is untouched (zero
slots persisted); if every slot has a reason, all slots are persisted in
one batch, committed once, the popup closes, and (when the transaction had
no prior slots and the batch is in ascending sequence order) querySlots
returns exactly that batch in sequence order. -/
theorem terminal_save_all_or_nothing (d n now : String) (p : PopupState) (db : DB)
    (h0 : 0 ≤ p.currentIndex) (h1 : p.currentIndex < (p.steps.length : Int)) :
    ((saveCurrent d n p).steps.any (fun s => pyFalsy s.selected) = true →
      (saveAll d n now p db).2.2 = SaveOutcome.requiredError ∧
      (saveAll d n now p db).2.1 = db) ∧
    ((saveCurrent d n p).steps.all (fun s => !pyFalsy s.selected) = true →
      (saveAll d n now p db).2.2 = SaveOutcome.saved ∧
      (saveAll d n now p db).1.phase = Phase.closed ∧
      (saveAll d n now p db).2.1.visible.remarks
        = db.visible.remarks ++ (saveCurrent d n p).steps.map (remarkOf p.recordId now) ∧
      (saveAll d n now p db).2.1.durable = (saveAll d n now p db).2.1.visible ∧
      (db.visible.remarks.filter (fun r => r.record_id == p.recordId) = [] →
        List.Pairwise bySeq ((saveCurrent d n p).steps.map (remarkOf p.recordId now)) →
        querySlots p.recordId (saveAll d n now p db).2.1
          = (saveCurrent d n p).steps.map (remarkOf p.recordId now))) := by
  obtain ⟨s0, hsp, _⟩ := stepAt_saveCurrent d n p h0 h1
  have hrid : (saveCurrent d n p).recordId = p.recordId := saveCurrent_recordId d n p
  constructor
  · intro hany
    unfold saveAll saveAllWith
    rw [hsp]
    simp only
    rw [if_pos hany]
    exact ⟨rfl, rfl⟩
  · intro hall
    have hany : ((saveCurrent d n p).steps.any (fun s => pyFalsy s.selected)) = false := by
      rw [List.any_eq_false]
      intro x hx
      have := List.all_eq_true.mp hall x hx
      simp at this
      simp [this]
    unfold saveAll saveAllWith
    rw [hsp]
    simp only
    rw [if_neg (by simp [hany])]
    rw [hrid, insertLoop_no_fail p.recordId now (saveCurrent d n p).steps 0 db]
    simp only [commitDB]
    refine ⟨trivial, trivial, trivial, trivial, ?_⟩
    intro hold hsorted
    unfold querySlots
    simp only
    rw [List.filter_append, hold]
    have hbatch : ((saveCurrent d n p).steps.map (remarkOf p.recordId now)).filter
        (fun r => r.record_id == p.recordId)
          = (saveCurrent d n p).steps.map (remarkOf p.recordId now) := by
      rw [List.filter_eq_self]
      intro r hr
      simp only [List.mem_map] at hr
      obtain ⟨s, _, rfl⟩ := hr
      simp [remarkOf]
    rw [hbatch]
    simp only [List.nil_append]
    exact List.Sorted.insertionSort_eq hsorted

/-- Fixture date-time stamp used by the save witnesses. -/
def nowC2 : String := "2026-10-12 10:00:00"

/-- Fixture: three missing slots, the third still unclassified. -/
def pC2bad : PopupState :=
  { recordId := 7, delivered := 10, emptyReceived := 7, emptyEditText := "7",
    steps := [
      { seq := 1, mode := SlotKind.missing, options := missingOptions,
        selected := some "NC", consumer := "" },
      { seq := 2, mode := SlotKind.missing, options := missingOptions,
        selected := some "DBC", consumer := "" },
      { seq := 3, mode := SlotKind.missing, options := missingOptions,
        selected := none, consumer := "" }],
    currentIndex := 0, phase := Phase.awaitingSlotEntry }

/-- Fixture: three missing slots, all classified, positioned on the last. -/
def pC2ok : PopupState :=
  { pC2bad with
    steps := [
      { seq := 1, mode := SlotKind.missing, options := missingOptions,
        selected := some "NC", consumer := "" },
      { seq := 2, mode := SlotKind.missing, options := missingOptions,
        selected := some "DBC", consumer := "" },
      { seq := 3, mode := SlotKind.missing, options := missingOptions,
        selected := some "TV", consumer := "" }],
    currentIndex := 2 }

theorem terminal_save_witness :
    ((saveAll "NC" "" nowC2 pC2bad emptyDB).2.2 = SaveOutcome.requiredError ∧
      (saveAll "NC" "" nowC2 pC2bad emptyDB).2.1 = emptyDB) ∧
    ((saveAll "TV" "" nowC2 pC2ok emptyDB).2.2 = SaveOutcome.saved ∧
      (saveAll "TV" "" nowC2 pC2ok emptyDB).1.phase = Phase.closed ∧
      querySlots 7 (saveAll "TV" "" nowC2 pC2ok emptyDB).2.1
        = (saveCurrent "TV" "" pC2ok).steps.map (remarkOf 7 nowC2)) := by
  have hbad := terminal_save_all_or_nothing "NC" "" nowC2 pC2bad emptyDB (by decide) (by decide)
  have hok := terminal_save_all_or_nothing "TV" "" nowC2 pC2ok emptyDB (by decide) (by decide)
  refine ⟨hbad.1 (by decide), ?_⟩
  have h2 := hok.2 (by decide)
  exact ⟨h2.1, h2.2.1, h2.2.2.2.2 (by decide) (by decide)⟩

/-- Fixture: a fully classified 3-slot batch for transaction 9. -/
def pC3 : PopupState :=
  { recordId := 9, delivered := 10, emptyReceived := 7, emptyEditText := "7",
    steps := [
      { seq := 1, mode := SlotKind.missing, options := missingOptions,
        selected := some "NC", consumer := "" },
      { seq := 2, mode := SlotKind.missing, options := missingOptions,
        selected := some "DBC", consumer := "" },
      { seq := 3, mode := SlotKind.missing, options := missingOptions,
        selected := some "TV", consumer := "" }],
    currentIndex := 0, phase := Phase.awaitingSlotEntry }

/-- A StorageError raised by the third INSERT of the batch. -/
def failThird : Nat → Bool := fun k => k == 2

/-- C3: the code violates the all-or-nothing requirement.  When the third
INSERT of a fully classified 3-slot batch raises a StorageError, save_all
catches the exception without any rollback: the two already-executed
inserts stay pending on the shared connection, so querySlots (which reads
through that connection) returns 2 rows for the transaction, not 0 — and
nothing was committed yet (the durable snapshot is still empty), so any
later commit on the connection would publish the partial batch. -/
theorem save_all_partial_batch_remains :
    (saveAllWith failThird "NC" "" nowC2 pC3 emptyDB).2.2 = SaveOutcome.storageError ∧
    (querySlots 9 (saveAllWith failThird "NC" "" nowC2 pC3 emptyDB).2.1).length = 2 ∧
    (saveAllWith failThird "NC" "" nowC2 pC3 emptyDB).2.1.durable.remarks = [] := by
  decide

/-- C4: validation does not stop persistence.  With delivered 1 and
online + app = 2 > 1, calculate rejects the input (none), but on_submit
ignores that failure and still inserts a new transaction row — one whose
stored counts themselves violate the invariant online + app <= delivered. -/
theorem submit_persists_despite_invalid :
    calculate "1" "1" "1" "0" (1755/2 : Rat) = none ∧
    (onSubmit "Choose" "1" "0" "1" "1" "0" "" 0 (1755/2 : Rat) nowC2
      emptyDB).1.visible.records.length = 1 ∧
    (onSubmit "Choose" "1" "0" "1" "1" "0" "" 0 (1755/2 : Rat) nowC2
      emptyDB).1.visible.records.map (fun r => r.total_cyl) = [1] ∧
    (onSubmit "Choose" "1" "0" "1" "1" "0" "" 0 (1755/2 : Rat) nowC2
      emptyDB).1.visible.records.map (fun r => r.online_pay + r.paytm_pay) = [2] := by
  decide

theorem roundHalfEvenInt_half (f : Int) (hev : f % 2 = 0) :
    roundHalfEvenInt ((f : Rat) + 1/2) = f := by
  have hfl : ratFloor ((f : Rat) + 1/2) = f := by
    unfold ratFloor
    rw [Int.floor_eq_iff]
    constructor
    · norm_num
    · norm_num
  simp only [roundHalfEvenInt]
  rw [hfl]
  have hr : ((f : Rat) + 1/2) - (f : Rat) = 1/2 := by ring
  rw [hr, if_neg (by norm_num), if_neg (by norm_num), if_pos hev]

/-- C5 counterexample: with price 877.5, one cash cylinder and partial
0.125 — all dyadic values on which double arithmetic is exact — the code
computes round(877.625, 2) = 877.62 (Python rounds the exact half to the
even cent), while the claimed half-up rounding gives 877.63; so the claim
fails at this input.  In addition, for the claim's own example
partial = 0.005 the model yields 877.50 (877.505 is a half, rounded to the
even cent), not the claimed 877.51. -/
theorem rounding_half_up_fails :
    calcAmount 1 0 0 (1/8) (1755/2) = some (43881/50 : Rat) ∧
    specRoundHalfUp2 (((1 - 0 - 0 : Int) : Rat) * (1755/2) + 1/8) = 87763/100 ∧
    (43881/50 : Rat) ≠ 87763/100 ∧
    calcAmount 1 0 0 (1/200) (1755/2) = some (1755/2 : Rat) ∧
    (1755/2 : Rat) ≠ 87751/100 := by
  refine ⟨?_, ?_, by norm_num, ?_, by norm_num⟩
  · unfold calcAmount
    rw [if_neg (by decide)]
    unfold pyRound2
    have harg : ((((1 : Int) - 0 - 0 : Int) : Rat) * (1755/2) + 1/8) * 100
        = ((87762 : Int) : Rat) + 1/2 := by
      push_cast
      norm_num
    rw [harg, roundHalfEvenInt_half 87762 (by decide)]
    simp only [Option.some.injEq]
    push_cast
    norm_num
  · unfold specRoundHalfUp2 ratFloor
    have harg : ((((1 : Int) - 0 - 0 : Int) : Rat) * (1755/2) + 1/8) * 100 + 1/2
        = (87763 : Rat) := by
      push_cast
      norm_num
    rw [harg]
    have hfl : ⌊(87763 : Rat)⌋ = 87763 := by
      rw [Int.floor_eq_iff]
      constructor <;> norm_num
    rw [hfl]
    norm_num
  · unfold calcAmount
    rw [if_neg (by decide)]
    unfold pyRound2
    have harg : ((((1 : Int) - 0 - 0 : Int) : Rat) * (1755/2) + 1/200) * 100
        = ((87750 : Int) : Rat) + 1/2 := by
      push_cast
      norm_num
    rw [harg, roundHalfEvenInt_half 87750 (by decide)]
    simp only [Option.some.injEq]
    push_cast
    norm_num

/-- C5 (amended): for every valid input with online + app <= delivered, the
computed amountDue equals (delivered - online - app) * price + partial
rounded to 2 decimal places by Python round, which is half-to-even
(banker's) rounding over the values — not half-up. -/
theorem amount_formula_half_even (total online paytm : Int) (pa price : Rat)
    (h : online + paytm ≤ total) :
    calcAmount total online paytm pa price
      = some (pyRound2 (((total - online - paytm : Int) : Rat) * price + pa)) := by
  unfold calcAmount
  rw [if_neg (by omega)]

theorem amount_formula_half_even_witness :
    calcAmount 1 0 0 (1/8) (1755/2)
      = some (pyRound2 (((1 - 0 - 0 : Int) : Rat) * (1755/2) + 1/8)) :=
  amount_formula_half_even 1 0 0 (1/8) (1755/2) (by decide)

theorem find?_append_none {α : Type} (p : α → Bool) (l1 l2 : List α) (h : l1.find? p = none) :
    (l1 ++ l2).find? p = l2.find? p := by
  induction l1 with
  | nil => rfl
  | cons x xs ih =>
    cases hp : p x with
    | true =>
      rw [List.find?_cons_of_pos _ hp] at h
      exact absurd h (by simp)
    | false =>
      rw [List.find?_cons_of_neg _ (by simp [hp])] at h
      rw [List.cons_append, List.find?_cons_of_neg _ (by simp [hp])]
      exact ih h

theorem selectEmpty_insert (i : Nat) (row : RecordRow) (db : DB) (hid : row.id = i)
    (hfresh : ∀ r ∈ db.visible.records, r.id ≠ i) :
    selectEmpty i (commitDB (execInsertRecord row db)) = some row.empty_received := by
  unfold selectEmpty commitDB execInsertRecord
  simp only
  have hnone : db.visible.records.find? (fun r => r.id == i) = none := by
    rw [List.find?_eq_none]
    intro r hr
    simp [hfresh r hr]
  rw [find?_append_none _ _ _ hnone]
  rw [List.find?_cons_of_pos _ (by simp [hid])]
  rfl

/-- C9: at transaction creation, a blank or unparseable empties field
defaults the stored emptiesReceivedCount to the delivered count, an
operator-supplied value is stored as given, and the reconcile popup is
opened on the value read back from the store, with its editable empties
field initialized (as text) to that stored value. -/
theorem empties_default_init
    (emp totalText emptyText onlineText paytmText partText collText : String)
    (prevFinal price : Rat) (now : String) (db : DB) (dv onl pay : Int) (pa : Rat)
    (htot : parseIntOrZero totalText = some dv)
    (ho : parseIntOrZero onlineText = some onl)
    (hpy : parseIntOrZero paytmText = some pay)
    (hpa : parseFloatOrZero partText = some pa)
    (hfresh : ∀ r ∈ db.visible.records, r.id ≠ db.nextId) :
    (onSubmit emp totalText emptyText onlineText paytmText partText collText
        prevFinal price now db).2
      = some (db.nextId, reconcileInit db.nextId dv
          (if emptyText = "" then dv else (parsePyInt emptyText).getD dv)) ∧
    selectEmpty db.nextId
        (onSubmit emp totalText emptyText onlineText paytmText partText collText
          prevFinal price now db).1
      = some (if emptyText = "" then dv else (parsePyInt emptyText).getD dv) ∧
    (reconcileInit db.nextId dv
        (if emptyText = "" then dv else (parsePyInt emptyText).getD dv)).emptyReceived
      = (if emptyText = "" then dv else (parsePyInt emptyText).getD dv) ∧
    (reconcileInit db.nextId dv
        (if emptyText = "" then dv else (parsePyInt emptyText).getD dv)).emptyEditText
      = toString (if emptyText = "" then dv else (parsePyInt emptyText).getD dv) := by
  have hsel := selectEmpty_insert db.nextId
    { id := db.nextId, employee := if emp = "Choose" then "" else emp, total_cyl := dv,
      empty_received := if emptyText = "" then dv else (parsePyInt emptyText).getD dv,
      online_pay := onl, paytm_pay := pay, part_amt := pa,
      final_amt := (calculate totalText onlineText paytmText partText price).getD prevFinal,
      collected_amt := (parseFloatOrZero collText).getD 0, date_time := now }
    db rfl hfresh
  unfold onSubmit
  simp only [htot, ho, hpy, hpa, hsel]
  exact ⟨trivial, trivial, rfl, rfl⟩

theorem empties_default_init_witness :
    (onSubmit "A" "10" "" "0" "0" "0" "" 0 (1755/2) nowC2 emptyDB).2
      = some (1, reconcileInit 1 10 10) ∧
    selectEmpty 1 (onSubmit "A" "10" "" "0" "0" "0" "" 0 (1755/2) nowC2 emptyDB).1 = some 10 ∧
    (onSubmit "A" "10" "7" "0" "0" "0" "" 0 (1755/2) nowC2 emptyDB).2
      = some (1, reconcileInit 1 10 7) ∧
    (reconcileInit 1 10 7).emptyEditText = "7" := by
  have h1 := empties_default_init "A" "10" "" "0" "0" "0" "" 0 (1755/2) nowC2 emptyDB
    10 0 0 0 (by decide) (by decide) (by decide) (by decide) (by simp [emptyDB, emptyTables])
  have h2 := empties_default_init "A" "10" "7" "0" "0" "0" "" 0 (1755/2) nowC2 emptyDB
    10 0 0 0 (by decide) (by decide) (by decide) (by decide) (by simp [emptyDB, emptyTables])
  refine ⟨h1.1.trans (by decide), h1.2.1.trans (by decide), h2.1.trans (by decide), ?_⟩
  exact (h2.2.2.2).trans (by decide)

theorem dropWhile_head_false (p : Char → Bool) :
    ∀ (l : List Char) (x : Char) (xs : List Char), l.dropWhile p = x :: xs → p x = false := by
  intro l
  induction l with
  | nil =>
    intro x xs h
    simp [List.dropWhile] at h
  | cons y ys ih =>
    intro x xs h
    rw [List.dropWhile_cons] at h
    by_cases hp : p y
    · exact ih x xs (by rwa [if_pos hp] at h)
    · rw [if_neg hp] at h
      cases h
      exact Bool.eq_false_iff.mpr hp

theorem pyStrip_eq_rdrop (s : String) :
    pyStrip s = String.mk (List.rdropWhile isSpaceChar (List.dropWhile isSpaceChar s.data)) :=
  rfl

theorem pyStrip_idem (s : String) : pyStrip (pyStrip s) = pyStrip s := by
  rw [pyStrip_eq_rdrop s, pyStrip_eq_rdrop]
  show String.mk (List.rdropWhile isSpaceChar (List.dropWhile isSpaceChar
    (List.rdropWhile isSpaceChar (List.dropWhile isSpaceChar s.data)))) = _
  have hdB : List.dropWhile isSpaceChar
      (List.rdropWhile isSpaceChar (List.dropWhile isSpaceChar s.data))
        = List.rdropWhile isSpaceChar (List.dropWhile isSpaceChar s.data) := by
    cases hBc : List.rdropWhile isSpaceChar (List.dropWhile isSpaceChar s.data) with
    | nil => rfl
    | cons x xs =>
      obtain ⟨t, ht⟩ := List.rdropWhile_prefix isSpaceChar
        (List.dropWhile isSpaceChar s.data)
      rw [hBc] at ht
      have hx : isSpaceChar x = false :=
        dropWhile_head_false isSpaceChar s.data x (xs ++ t) (by rw [← ht]; rfl)
      rw [List.dropWhile_cons, if_neg (by simp [hx])]
  rw [hdB, List.rdropWhile_idempotent]

/-- C8: listForDate returns exactly the records whose date_time falls on
the queried calendar date (prefix match), in ascending insertion-id order,
each paired with its remark summary; the summary walks the transaction's
slots in sequence order and renders reasonCode: consumerName per slot,
omitting the colon-name part exactly when the consumer name is empty
(stored names are always stripped — save_current strips them and pyStrip
is idempotent — so the whitespace-only test in the source coincides with
the emptiness test of the claim on every program-written row). -/
theorem list_for_date_spec (d : String) (db : DB) :
    List.Sorted byId (queryTransactionsByDate d db) ∧
    (∀ r : RecordRow, r ∈ queryTransactionsByDate d db ↔
      r ∈ db.visible.records ∧ likeMatch d r.date_time = true) ∧
    listForDate d db
      = (queryTransactionsByDate d db).map (fun r => (r, remarkSummary r.id db)) ∧
    (∀ recId : Nat, List.Sorted bySeq (querySlots recId db)) ∧
    (∀ recId : Nat, (∀ q ∈ querySlots recId db, pyStrip q.consumer_name = q.consumer_name) →
      remarkSummary recId db = specRemarkSummary (querySlots recId db)) ∧
    (∀ s : String, pyStrip (pyStrip s) = pyStrip s) := by
  refine ⟨?_, ?_, rfl, ?_, ?_, pyStrip_idem⟩
  · exact List.sorted_insertionSort byId _
  · intro r
    unfold queryTransactionsByDate
    rw [(List.perm_insertionSort byId _).mem_iff]
    exact List.mem_filter
  · intro recId
    exact List.sorted_insertionSort bySeq _
  · intro recId htrim
    unfold remarkSummary specRemarkSummary
    congr 1
    apply List.map_congr_left
    intro q hq
    have ht := htrim q hq
    unfold formatRemark
    by_cases hcn : q.consumer_name = ""
    · rw [if_neg (by simp [hcn]), if_pos hcn]
    · rw [if_pos ⟨hcn, by rw [ht]; exact hcn⟩, if_neg hcn]

def rowC8 : RecordRow :=
  { id := 1, employee := "A", total_cyl := 10, empty_received := 8, online_pay := 0,
    paytm_pay := 0, part_amt := 0, final_amt := 0, collected_amt := 0,
    date_time := "2026-10-12 09:00:00" }

def tablesC8 : Tables :=
  { records := [rowC8],
    remarks := [
      { record_id := 1, seq := 2, remark_type := "DBC", consumer_name := "",
        created_at := "2026-10-12 09:05:00" },
      { record_id := 1, seq := 1, remark_type := "NC", consumer_name := "Ravi",
        created_at := "2026-10-12 09:05:00" }] }

def dbC8 : DB := { nextId := 2, visible := tablesC8, durable := tablesC8 }

theorem list_for_date_witness :
    (queryTransactionsByDate "2026-10-12" dbC8).map (fun r => r.id) = [1] ∧
    remarkSummary 1 dbC8 = "NC: Ravi, DBC" ∧
    remarkSummary 1 dbC8 = specRemarkSummary (querySlots 1 dbC8) := by
  refine ⟨by decide, by decide, ?_⟩
  exact (list_for_date_spec "2026-10-12" dbC8).2.2.2.2.1 1 (by decide)
